import Mathlib

/-!
Verification development for the report-generation engine of the
teaching-assistant repository.  The data model and the operations are
translated from the TypeScript sources (`Report.ts`, `Class.ts`, the
`Statistics` value object and the Cucumber feature files).  JavaScript
numbers are modelled as exact rationals (`ℚ`); all grade values involved
are small integers, so no double-rounding phenomena are reachable on the
inputs the theorems quantify over.  `Math.round(x*100)/100` is modelled
by `round2` (`Math.round` rounds half toward positive infinity, which on
the nonnegative values occurring here is `⌊x + 1/2⌋`).  A JavaScript
`Map` is modelled as an association list in insertion order, which is
exactly the iteration order `Map.forEach` guarantees.
-/

namespace TA

/-- Grade symbols, from `type Grade = 'MA' | 'MPA' | 'MANA'` in `Evaluation.ts`
(the type is consumed via `Record<Grade, number>` in `Report.ts`). -/
inductive Grade where
  | MA
  | MPA
  | MANA
deriving DecidableEq, Repr

/-- Student identity as used by the report: `getCPF()` and `.name`. -/
structure Student where
  name : String
  cpf : String
deriving DecidableEq, Repr

/-- One evaluation record: `(goal, grade)`, accessed through `getGoal()` and
`getGrade()` in `Report.ts`. -/
structure Evaluation where
  goal : String
  grade : Grade
deriving DecidableEq, Repr

/-- One student's enrollment in a class, carrying its evaluation records
(accessed through `getStudent()` and `getEvaluations()`). -/
structure Enrollment where
  student : Student
  evaluations : List Evaluation
deriving DecidableEq, Repr

/-- Statistics value object, from `Statistics.ts`. -/
structure Statistics where
  meanGrade : ℚ := 0
  enrolled : ℚ := 0
  approved : ℚ := 0
  failedByGrade : ℚ := 0
  failedByAbsence : ℚ := 0
deriving DecidableEq, Repr

/-- Class snapshot, from `Class.ts`: topic, semester, year and the list of
enrollments (the statistics field is carried but not read by `Report`). -/
structure Class where
  topic : String
  semester : Int
  year : Int
  enrollments : List Enrollment
  statistics : Statistics := {}
deriving DecidableEq, Repr

/-- `getClassId()` from `Class.ts`: `${topic}-${year}-${semester}`. -/
def getClassId (c : Class) : String :=
  c.topic ++ "-" ++ toString c.year ++ "-" ++ toString c.semester

/-- Student status, from `type StudentStatus = 'APPROVED' | 'APPROVED_FINAL' |
'FAILED'` at line 204 of `Report.ts`. -/
inductive StudentStatus where
  | APPROVED
  | APPROVED_FINAL
  | FAILED
deriving DecidableEq, Repr

/-- String forms of the three values of `StudentStatus` in `Report.ts`
(line 204); the type has exactly these three constructors. -/
def studentStatusValues : List String :=
  ["APPROVED", "APPROVED_FINAL", "FAILED"]

/-- Distribution of counts per grade symbol, from the
`gradeDistribution: { MANA: number; MPA: number; MA: number }` field. -/
structure GradeDistribution where
  MANA : Nat
  MPA : Nat
  MA : Nat
deriving DecidableEq, Repr

/-- Per-goal performance entry, from `interface EvaluationPerformance`. -/
structure EvaluationPerformance where
  goal : String
  averageGrade : ℚ
  gradeDistribution : GradeDistribution
  evaluatedStudents : Nat
deriving DecidableEq, Repr

/-- Per-student report entry, from `interface StudentEntry`. -/
structure StudentEntry where
  studentId : String
  name : String
  finalGrade : ℚ
  status : StudentStatus
deriving DecidableEq, Repr

/-- Report value object, from `interface ReportData` (lines 213-226 of
`Report.ts`); `generatedAt` is a wall-clock timestamp passed in by the
caller (`new Date()` in the source). -/
structure ReportData where
  classId : String
  topic : String
  semester : Int
  year : Int
  totalEnrolled : Nat
  studentsAverage : ℚ
  approvedCount : Nat
  approvedFinalCount : Nat
  notApprovedCount : Nat
  evaluationPerformance : List EvaluationPerformance
  students : List StudentEntry
  generatedAt : Nat
deriving DecidableEq, Repr

/-- Field names of `interface ReportData`, in source order (lines 213-226 of
`Report.ts`). -/
def reportDataFields : List String :=
  ["classId", "topic", "semester", "year", "totalEnrolled",
   "studentsAverage", "approvedCount", "approvedFinalCount",
   "notApprovedCount", "evaluationPerformance", "students", "generatedAt"]

/-- Stable field set demanded by the specification (§6) and by the service
feature's schema scenario; written from the spec's words for comparison with
`reportDataFields`, which is translated from the source. -/
def specStableFields : List String :=
  ["classId", "topic", "semester", "year", "totalEnrolled",
   "studentsAverage", "approvedCount", "approvedFinalCount",
   "notApprovedCount", "failedByAbsenceCount", "pendingCount",
   "evaluationPerformance", "students", "generatedAt"]

/-- Grade-value table used by `calculateStudentAverage` in `Report.ts`
(lines 246-250): `{ MA: 10, MPA: 7, MANA: 4 }`. -/
def gradeValues : Grade → ℚ
  | .MA => 10
  | .MPA => 7
  | .MANA => 4

/-- Grade-value table literal repeated inside `calculateEvaluationPerformance`
in `Report.ts` (lines 333-337): `{ MA: 10, MPA: 7, MANA: 4 }`. -/
def gradeValuesPerf : Grade → ℚ
  | .MA => 10
  | .MPA => 7
  | .MANA => 4

/-- Expected values of `convertGradeToValue` asserted by the unit feature
file `grade_calculations.feature` (scenario "Convert grade acronym to
numeric value"): `MA → 10`, `MPA → 7`, `MANA → 0`. -/
def featureConvertGradeToValue : Grade → ℚ
  | .MA => 10
  | .MPA => 7
  | .MANA => 0

/-- `Math.round(q * 100) / 100` on a nonnegative rational: JavaScript's
`Math.round` rounds half toward positive infinity, i.e. `⌊x + 1/2⌋`. -/
def round2 (q : ℚ) : ℚ := ((⌊q * 100 + 1/2⌋ : ℤ) : ℚ) / 100

/-- `Report.calculateStudentAverage` (lines 239-257): `0` for an enrollment
with no evaluations, else the sum of the grade values divided by the number
of evaluations. -/
def calculateStudentAverage (e : Enrollment) : ℚ :=
  if e.evaluations.length = 0 then 0
  else (e.evaluations.foldl (fun s ev => s + gradeValues ev.grade) 0) /
    (e.evaluations.length : ℚ)

/-- `Report.calculateClassAverage` (lines 259-271): `0` for a class with no
enrollments, else the sum of the student averages divided by the number of
enrollments. -/
def calculateClassAverage (c : Class) : ℚ :=
  if c.enrollments.length = 0 then 0
  else (c.enrollments.foldl (fun s e => s + calculateStudentAverage e) 0) /
    (c.enrollments.length : ℚ)

/-- `Report.getStudentStatus` (lines 277-284): `APPROVED` when the average is
`>= 7.0`, otherwise `FAILED` (the `APPROVED_FINAL` branch is a TODO in the
source and is never taken). -/
def getStudentStatus (e : Enrollment) : StudentStatus :=
  if 7 ≤ calculateStudentAverage e then .APPROVED else .FAILED

/-- Result triple of `Report.calculateApprovalStats`. -/
structure ApprovalStats where
  approved : Nat
  approvedFinal : Nat
  notApproved : Nat
deriving DecidableEq, Repr

/-- Loop body of `Report.calculateApprovalStats` (lines 293-302): the
`if / else if / else` over the status of one enrollment; the `else` branch
of the source catches exactly `FAILED`, the only remaining status value. -/
def approvalStep (st : ApprovalStats) (e : Enrollment) : ApprovalStats :=
  match getStudentStatus e with
  | .APPROVED => { st with approved := st.approved + 1 }
  | .APPROVED_FINAL => { st with approvedFinal := st.approvedFinal + 1 }
  | .FAILED => { st with notApproved := st.notApproved + 1 }

/-- `Report.calculateApprovalStats` (lines 286-305): counts statuses over the
enrollments. -/
def calculateApprovalStats (c : Class) : ApprovalStats :=
  c.enrollments.foldl approvalStep ⟨0, 0, 0⟩

/-- Accumulator entry of the `goalMap` in `calculateEvaluationPerformance`:
the list of grades seen for the goal and the running distribution. -/
structure GoalData where
  grades : List Grade
  gradeDistribution : GradeDistribution
deriving DecidableEq, Repr

/-- `goalData.gradeDistribution[grade]++` from `Report.ts` line 329. -/
def bumpDist (g : Grade) (d : GradeDistribution) : GradeDistribution :=
  match g with
  | .MANA => { d with MANA := d.MANA + 1 }
  | .MPA => { d with MPA := d.MPA + 1 }
  | .MA => { d with MA := d.MA + 1 }

/-- One step of building the `goalMap` (lines 314-331 of `Report.ts`): if the
goal is already a key its entry is updated in place (`grades.push`, bump of
the distribution), otherwise a fresh entry is appended at the end, matching
JavaScript `Map` insertion order. -/
def insertEval : List (String × GoalData) → String → Grade → List (String × GoalData)
  | [], g, gr => [(g, ⟨[gr], bumpDist gr ⟨0, 0, 0⟩⟩)]
  | (k, d) :: rest, g, gr =>
    if k = g then
      (k, ⟨d.grades ++ [gr], bumpDist gr d.gradeDistribution⟩) :: rest
    else
      (k, d) :: insertEval rest g gr

/-- Every evaluation of the class in traversal order: the nested
`enrollments.forEach / evaluations.forEach` of `Report.ts`. -/
def classEvaluations (c : Class) : List Evaluation :=
  (c.enrollments.map Enrollment.evaluations).flatten

/-- The fully built `goalMap` of `calculateEvaluationPerformance`. -/
def buildGoalMap (evs : List Evaluation) : List (String × GoalData) :=
  evs.foldl (fun m ev => insertEval m ev.goal ev.grade) []

/-- Finalization of one `goalMap` entry (lines 341-354 of `Report.ts`):
average of the goal's grade values (0 guarded on an empty list), rounded to
2 decimals, together with the distribution and the evaluation count. -/
def mkPerfEntry (g : String) (d : GoalData) : EvaluationPerformance :=
  let totalGrade := d.grades.foldl (fun s gr => s + gradeValuesPerf gr) 0
  let averageGrade : ℚ :=
    if 0 < d.grades.length then totalGrade / (d.grades.length : ℚ) else 0
  { goal := g
    averageGrade := round2 averageGrade
    gradeDistribution := d.gradeDistribution
    evaluatedStudents := d.grades.length }

/-- `performance.sort((a, b) => a.goal.localeCompare(b.goal))`, modelled as a
merge sort by the lexicographic order on goal names. -/
def sortPerf (l : List EvaluationPerformance) : List EvaluationPerformance :=
  l.mergeSort (fun a b => decide (a.goal ≤ b.goal))

/-- `Report.calculateEvaluationPerformance` (lines 307-357). -/
def calculateEvaluationPerformance (c : Class) : List EvaluationPerformance :=
  sortPerf ((buildGoalMap (classEvaluations c)).map (fun p => mkPerfEntry p.1 p.2))

/-- `Report.getStudentReports` (lines 359-373). -/
def getStudentReports (c : Class) : List StudentEntry :=
  c.enrollments.map (fun e =>
    { studentId := e.student.cpf
      name := e.student.name
      finalGrade := round2 (calculateStudentAverage e)
      status := getStudentStatus e })

/-- `Report.generate` (lines 379-399); `now` stands for the `new Date()`
timestamp. -/
def generate (c : Class) (now : Nat) : ReportData :=
  { classId := getClassId c
    topic := c.topic
    semester := c.semester
    year := c.year
    totalEnrolled := c.enrollments.length
    studentsAverage := round2 (calculateClassAverage c)
    approvedCount := (calculateApprovalStats c).approved
    approvedFinalCount := (calculateApprovalStats c).approvedFinal
    notApprovedCount := (calculateApprovalStats c).notApproved
    evaluationPerformance := calculateEvaluationPerformance c
    students := getStudentReports c
    generatedAt := now }

/-- Accumulation step of the Average Calculator: a present value is added to
the running sum and counted; an absent value changes nothing. -/
def optAccum (p : ℚ × Nat) : Option ℚ → ℚ × Nat
  | some v => (p.1 + v, p.2 + 1)
  | none => p

/-- Modelled from the spec: the Average Calculator of §4.2 over a collection
of optional numeric grades (the `calculateAverage` function exercised by
`grade_calculations.feature` is not among the supplied sources).  It walks
the collection once, accumulating the sum and the count of the present
values only, and returns `0` when no value is present. -/
def calculateAverage (grades : List (Option ℚ)) : ℚ :=
  let acc := grades.foldl optAccum (0, 0)
  if acc.2 = 0 then 0 else acc.1 / (acc.2 : ℚ)

/-- Grade values recorded for one goal across the whole class, in traversal
order; used to state what the per-goal mean must be. -/
def gradesForGoal (c : Class) (g : String) : List ℚ :=
  ((classEvaluations c).filter (fun ev => ev.goal == g)).map
    (fun ev => gradeValuesPerf ev.grade)

/-- Effect of one `insertEval` step on the entry of the inserted key:
a fresh entry when the key was absent, an in-place update otherwise. -/
def updGoalData (gr : Grade) : Option GoalData → GoalData
  | none => ⟨[gr], bumpDist gr ⟨0, 0, 0⟩⟩
  | some d => ⟨d.grades ++ [gr], bumpDist gr d.gradeDistribution⟩

/-- Grades recorded for one goal within an evaluation list, in order. -/
def gradesIn (evs : List Evaluation) (g : String) : List Grade :=
  (evs.filter (fun ev => ev.goal == g)).map Evaluation.grade

/-- Distribution obtained by counting each grade symbol in a list. -/
def countDist (gs : List Grade) : GradeDistribution :=
  ⟨gs.count .MANA, gs.count .MPA, gs.count .MA⟩

/-- Sample enrollment with zero evaluation records (the "Pending Student" of
the service feature's pending-state scenario). -/
def noGradesEnrollment : Enrollment :=
  ⟨⟨"Pending Student 1", "88888888801"⟩, []⟩

/-- Sample class with one enrollment and no recorded evaluations. -/
def pendingStudentClass : Class :=
  { topic := "Empty Evaluations Class", semester := 1, year := 2025,
    enrollments := [noGradesEnrollment] }

/-- Sample class with zero enrollments. -/
def emptyClass : Class :=
  { topic := "Empty Class", semester := 1, year := 2025, enrollments := [] }

/-- Sample enrollment whose three evaluations are all `MPA` (mean exactly 7). -/
def mpaEnrollment : Enrollment :=
  ⟨⟨"Bob", "22222222222"⟩,
   [⟨"Requirements", .MPA⟩, ⟨"Design", .MPA⟩, ⟨"Tests", .MPA⟩]⟩

/-- Sample enrollment with a single `MA` evaluation on goal "Tests". -/
def maEnrollment : Enrollment :=
  ⟨⟨"Alice", "11111111111"⟩, [⟨"Tests", .MA⟩]⟩

/-- Sample class holding exactly one evaluation record. -/
def oneEvalClass : Class :=
  { topic := "Test Class", semester := 1, year := 2025,
    enrollments := [maEnrollment] }

/-! Helper lemmas about the folds and the goal map. -/

theorem foldl_add_map {α : Type} (f : α → ℚ) :
    ∀ (l : List α) (a : ℚ), l.foldl (fun s x => s + f x) a = a + (l.map f).sum
  | [], a => by simp
  | x :: l, a => by
    simp only [List.foldl_cons, List.map_cons, List.sum_cons]
    rw [foldl_add_map f l]
    ring

theorem optAccum_foldl :
    ∀ (l : List (Option ℚ)) (s : ℚ) (n : Nat),
      l.foldl optAccum (s, n) =
        (s + (l.filterMap id).sum, n + (l.filterMap id).length)
  | [], s, n => by simp
  | some v :: l, s, n => by
    simp only [List.foldl_cons, optAccum, List.filterMap_cons, id_eq,
      List.sum_cons, List.length_cons]
    rw [optAccum_foldl l]
    simp only [Prod.mk.injEq]
    constructor
    · ring
    · omega
  | none :: l, s, n => by
    simp only [List.foldl_cons, optAccum, List.filterMap_cons, id_eq]
    exact optAccum_foldl l s n

theorem count_total (gs : List Grade) :
    gs.count .MANA + gs.count .MPA + gs.count .MA = gs.length := by
  induction gs with
  | nil => simp
  | cons g l ih => cases g <;> simp [List.count_cons] <;> omega

theorem countDist_concat (gs : List Grade) (gr : Grade) :
    countDist (gs ++ [gr]) = bumpDist gr (countDist gs) := by
  cases gr <;>
    simp [countDist, bumpDist, List.count_append, List.count_cons]

theorem lookup_insertEval (m : List (String × GoalData)) (g : String) (gr : Grade)
    (g' : String) :
    (insertEval m g gr).lookup g' =
      if g' = g then some (updGoalData gr (m.lookup g)) else m.lookup g' := by
  induction m with
  | nil =>
    by_cases h : g' = g
    · simp [insertEval, List.lookup, updGoalData, h]
    · have hb : (g' == g) = false := by simp [h]
      simp [insertEval, List.lookup, updGoalData, h, hb]
  | cons hd tl ih =>
    obtain ⟨k, d⟩ := hd
    by_cases hkg : k = g
    · subst hkg
      by_cases h : g' = k
      · simp [insertEval, List.lookup, updGoalData, h]
      · have hb : (g' == k) = false := by simp [h]
        simp [insertEval, List.lookup, updGoalData, h, hb]
    · have hbgk : (g == k) = false := by simp [Ne.symm hkg]
      by_cases h : g' = k
      · subst h
        have hne : ¬ g' = g := hkg
        simp [insertEval, hkg, List.lookup, hne, hbgk]
      · have hb : (g' == k) = false := by simp [h]
        simp [insertEval, hkg, List.lookup, h, hb, hbgk, ih]

theorem keys_insertEval (m : List (String × GoalData)) (g : String) (gr : Grade) :
    (insertEval m g gr).map Prod.fst =
      if g ∈ m.map Prod.fst then m.map Prod.fst else m.map Prod.fst ++ [g] := by
  induction m with
  | nil => simp [insertEval]
  | cons hd tl ih =>
    obtain ⟨k, d⟩ := hd
    by_cases hkg : k = g
    · subst hkg
      simp [insertEval]
    · by_cases hmem : g ∈ tl.map Prod.fst <;>
        simp [insertEval, hkg, ih, hmem, Ne.symm hkg]

theorem buildGoalMap_append (evs : List Evaluation) (ev : Evaluation) :
    buildGoalMap (evs ++ [ev]) =
      insertEval (buildGoalMap evs) ev.goal ev.grade := by
  simp [buildGoalMap, List.foldl_append]

theorem keys_buildGoalMap_nodup (evs : List Evaluation) :
    ((buildGoalMap evs).map Prod.fst).Nodup := by
  induction evs using List.reverseRecOn with
  | nil => simp [buildGoalMap]
  | append_singleton l ev ih =>
    rw [buildGoalMap_append, keys_insertEval]
    split
    · exact ih
    · next h =>
      refine List.Nodup.append ih (List.nodup_singleton _) ?_
      intro a ha hb
      rw [List.mem_singleton] at hb
      subst hb
      exact h ha

theorem gradesIn_append (evs : List Evaluation) (ev : Evaluation) (g : String) :
    gradesIn (evs ++ [ev]) g =
      gradesIn evs g ++ (if ev.goal = g then [ev.grade] else []) := by
  by_cases h : ev.goal = g <;>
    simp [gradesIn, List.filter_append, h]

theorem buildGoalMap_lookup (evs : List Evaluation) (g : String) :
    (buildGoalMap evs).lookup g =
      if gradesIn evs g = [] then none
      else some ⟨gradesIn evs g, countDist (gradesIn evs g)⟩ := by
  induction evs using List.reverseRecOn with
  | nil => simp [buildGoalMap, gradesIn, List.lookup]
  | append_singleton l ev ih =>
    rw [buildGoalMap_append, lookup_insertEval, gradesIn_append]
    by_cases hg : g = ev.goal
    · subst hg
      rw [if_pos rfl, ih]
      by_cases hnil : gradesIn l ev.goal = []
      · have h1 : countDist [ev.grade] = bumpDist ev.grade ⟨0, 0, 0⟩ := by
          have h2 := countDist_concat [] ev.grade
          simpa [countDist] using h2
        simp [hnil, updGoalData, h1]
      · have hne : gradesIn l ev.goal ++ [ev.grade] ≠ [] := by simp
        simp [hnil, hne, updGoalData, countDist_concat]
    · rw [if_neg hg, ih]
      have hne2 : ¬ ev.goal = g := fun hc => hg hc.symm
      simp [hne2]

theorem mem_iff_lookup :
    ∀ {m : List (String × GoalData)}, (m.map Prod.fst).Nodup →
      ∀ (k : String) (d : GoalData), ((k, d) ∈ m ↔ m.lookup k = some d)
  | [], _, k, d => by simp [List.lookup]
  | (k', d') :: tl, hnd, k, d => by
    simp only [List.map_cons, List.nodup_cons] at hnd
    obtain ⟨hk', hnd'⟩ := hnd
    by_cases h : k = k'
    · subst h
      simp only [List.mem_cons, List.lookup, beq_self_eq_true]
      constructor
      · rintro (heq | hm)
        · simp_all
        · exact absurd (List.mem_map_of_mem Prod.fst hm) hk'
      · intro hs
        left
        simp_all
    · have hb : (k == k') = false := by simp [h]
      simp [List.lookup, hb, h, mem_iff_lookup hnd' k d]

theorem mem_buildGoalMap {evs : List Evaluation} {k : String} {d : GoalData} :
    (k, d) ∈ buildGoalMap evs ↔
      (gradesIn evs k ≠ [] ∧ d = ⟨gradesIn evs k, countDist (gradesIn evs k)⟩) := by
  rw [mem_iff_lookup (keys_buildGoalMap_nodup evs) k d, buildGoalMap_lookup]
  split
  · next h => simp [h]
  · next h => simp [h, eq_comm]

theorem gradesIn_ne_nil_iff (evs : List Evaluation) (g : String) :
    gradesIn evs g ≠ [] ↔ ∃ ev ∈ evs, ev.goal = g := by
  simp [gradesIn, List.filter_eq_nil_iff]

theorem mem_classEvaluations (c : Class) (ev : Evaluation) :
    ev ∈ classEvaluations c ↔ ∃ e ∈ c.enrollments, ev ∈ e.evaluations := by
  simp [classEvaluations, List.mem_flatten]

theorem sortPerf_perm (l : List EvaluationPerformance) : (sortPerf l).Perm l :=
  List.mergeSort_perm l _

theorem sortPerf_sorted (l : List EvaluationPerformance) :
    (sortPerf l).Pairwise (fun a b => a.goal ≤ b.goal) := by
  have h := @List.sorted_mergeSort EvaluationPerformance
    (fun a b => decide (a.goal ≤ b.goal))
    (by intro a b c hab hbc; simp_all; exact le_trans hab hbc)
    (by intro a b; simpa using le_total a.goal b.goal) l
  exact h.imp (by intro a b hab; simpa using hab)

theorem mem_calcPerf {c : Class} {p : EvaluationPerformance} :
    p ∈ calculateEvaluationPerformance c ↔
      ∃ k d, (k, d) ∈ buildGoalMap (classEvaluations c) ∧ p = mkPerfEntry k d := by
  unfold calculateEvaluationPerformance
  rw [(sortPerf_perm _).mem_iff]
  simp only [List.mem_map, Prod.exists]
  constructor
  · rintro ⟨k, d, hm, rfl⟩
    exact ⟨k, d, hm, rfl⟩
  · rintro ⟨k, d, hm, rfl⟩
    exact ⟨k, d, hm, rfl⟩

theorem mkPerfEntry_avg (k : String) (d : GoalData) :
    (mkPerfEntry k d).averageGrade =
      round2 (if 0 < d.grades.length
        then (d.grades.map gradeValuesPerf).sum / (d.grades.length : ℚ) else 0) := by
  simp [mkPerfEntry, foldl_add_map]

theorem gradesForGoal_eq (c : Class) (g : String) :
    gradesForGoal c g = (gradesIn (classEvaluations c) g).map gradeValuesPerf := by
  simp [gradesForGoal, gradesIn, List.map_map]

theorem getStudentStatus_ne_final (e : Enrollment) :
    getStudentStatus e ≠ .APPROVED_FINAL := by
  unfold getStudentStatus
  split <;> simp

theorem approvalStep_sum (st : ApprovalStats) (e : Enrollment) :
    (approvalStep st e).approved + (approvalStep st e).approvedFinal
      + (approvalStep st e).notApproved
      = st.approved + st.approvedFinal + st.notApproved + 1 := by
  unfold approvalStep
  rcases hs : getStudentStatus e <;> simp [hs] <;> omega

theorem approvalStep_final (st : ApprovalStats) (e : Enrollment) :
    (approvalStep st e).approvedFinal = st.approvedFinal := by
  unfold approvalStep
  rcases hs : getStudentStatus e
  · simp
  · exact absurd hs (getStudentStatus_ne_final e)
  · simp

theorem foldl_approval_sum (l : List Enrollment) :
    ∀ st : ApprovalStats,
      (l.foldl approvalStep st).approved + (l.foldl approvalStep st).approvedFinal
        + (l.foldl approvalStep st).notApproved
        = st.approved + st.approvedFinal + st.notApproved + l.length := by
  induction l with
  | nil => intro st; simp
  | cons e l ih =>
    intro st
    simp only [List.foldl_cons, List.length_cons]
    rw [ih, approvalStep_sum]
    omega

theorem foldl_approval_final (l : List Enrollment) :
    ∀ st : ApprovalStats, (l.foldl approvalStep st).approvedFinal = st.approvedFinal := by
  induction l with
  | nil => intro st; simp
  | cons e l ih =>
    intro st
    simp only [List.foldl_cons]
    rw [ih, approvalStep_final]

/-! Claim theorems. -/

/-- C1: the claim says an enrollment with zero evaluation records is
classified `PENDING`; the code classifies it `FAILED` (its average is the
guard value `0`, below `7`), and the `StudentStatus` type of `Report.ts`
has no `PENDING` value at all. -/
theorem noGrades_status_FAILED :
    getStudentStatus noGradesEnrollment = .FAILED ∧
    "PENDING" ∉ studentStatusValues := by
  constructor
  · rw [getStudentStatus, calculateStudentAverage]
    norm_num [noGradesEnrollment]
  · simp [studentStatusValues]

/-- C2: the claim says `studentsAverage` (and a pending student's final
average) is an explicit "no data" null marker; the code produces the plain
number `0` for a class whose single enrollment has no evaluations, for the
student's own final grade, and for a class with zero enrollments — the
`ReportData` field is an unconditional number, never a null marker. -/
theorem noEvaluations_studentsAverage_zero :
    (generate pendingStudentClass 0).studentsAverage = 0 ∧
    (generate pendingStudentClass 0).students.map StudentEntry.finalGrade = [0] ∧
    (generate emptyClass 0).studentsAverage = 0 := by
  refine ⟨?_, ?_, ?_⟩
  · rw [generate]
    norm_num [calculateClassAverage, calculateStudentAverage,
      pendingStudentClass, noGradesEnrollment, round2]
  · rw [generate]
    norm_num [getStudentReports, calculateStudentAverage,
      pendingStudentClass, noGradesEnrollment, round2]
  · rw [generate]
    norm_num [calculateClassAverage, emptyClass, round2]

/-- C3: the claim says five counts (`approvedCount`, `approvedFinalCount`,
`notApprovedCount`, `failedByAbsenceCount`, `pendingCount`) partition
`totalEnrolled`; the generated report has no `pendingCount` or
`failedByAbsenceCount` field at all, and it is the three existing counts
that always sum to `totalEnrolled`. -/
theorem report_counts_partition (c : Class) (now : Nat) :
    "pendingCount" ∉ reportDataFields ∧
    "failedByAbsenceCount" ∉ reportDataFields ∧
    (generate c now).approvedCount + (generate c now).approvedFinalCount
      + (generate c now).notApprovedCount = (generate c now).totalEnrolled := by
  refine ⟨by simp [reportDataFields], by simp [reportDataFields], ?_⟩
  simp only [generate]
  unfold calculateApprovalStats
  have h := foldl_approval_sum c.enrollments ⟨0, 0, 0⟩
  simpa using h

/-- C4: the claim says the generated report carries the full stable field
set of the specification; the `ReportData` interface of `Report.ts` is
missing two of those fields (`failedByAbsenceCount` and `pendingCount`),
so the stable set is not a subset of the actual fields. -/
theorem report_missing_spec_fields :
    ("failedByAbsenceCount" ∈ specStableFields ∧ "pendingCount" ∈ specStableFields) ∧
    "failedByAbsenceCount" ∉ reportDataFields ∧
    "pendingCount" ∉ reportDataFields := by
  refine ⟨⟨?_, ?_⟩, ?_, ?_⟩ <;> simp [specStableFields, reportDataFields]

/-- C5: the claim says one canonical `MANA` value is used consistently
everywhere including the behaviour the unit tests check; the report engine
consistently uses `MANA → 4` in both of its grade-value tables, but the
unit feature file asserts `convertGradeToValue` maps `MANA → 0`, so the
repository blends two different `MANA` values. -/
theorem mana_value_blend :
    (gradeValues .MA = gradeValuesPerf .MA ∧
     gradeValues .MPA = gradeValuesPerf .MPA ∧
     gradeValues .MANA = gradeValuesPerf .MANA) ∧
    gradeValues .MA = 10 ∧ gradeValues .MPA = 7 ∧ gradeValues .MANA = 4 ∧
    featureConvertGradeToValue .MANA = 0 ∧
    gradeValues .MANA ≠ featureConvertGradeToValue .MANA := by
  norm_num [gradeValues, gradeValuesPerf, featureConvertGradeToValue]

/-- C6: for an enrollment with at least one evaluation record, the status
is `APPROVED` exactly when the mean of its recorded grade values is at
least `7`; in particular a mean of exactly `7` (all-`MPA`) is `APPROVED`. -/
theorem approved_iff_mean_ge_seven (e : Enrollment) (h : e.evaluations ≠ []) :
    getStudentStatus e = .APPROVED ↔
      7 ≤ (e.evaluations.map (fun ev => gradeValues ev.grade)).sum /
        (e.evaluations.length : ℚ) := by
  have hlen : ¬ e.evaluations.length = 0 := by simpa using h
  have havg : calculateStudentAverage e =
      (e.evaluations.map (fun ev => gradeValues ev.grade)).sum /
        (e.evaluations.length : ℚ) := by
    rw [calculateStudentAverage, if_neg hlen, foldl_add_map, zero_add]
  unfold getStudentStatus
  rw [havg]
  split <;> simp_all

/-- Witness for C6 at the all-`MPA` enrollment, whose mean is exactly 7. -/
theorem approved_iff_mean_ge_seven_witness :
    mpaEnrollment.evaluations ≠ [] ∧
    (getStudentStatus mpaEnrollment = .APPROVED ↔
      7 ≤ (mpaEnrollment.evaluations.map (fun ev => gradeValues ev.grade)).sum /
        (mpaEnrollment.evaluations.length : ℚ)) :=
  ⟨by simp [mpaEnrollment],
   approved_iff_mean_ge_seven mpaEnrollment (by simp [mpaEnrollment])⟩

/-- C7: the evaluation-performance list has an entry exactly for the goals
with at least one evaluation across the class, each entry's average is the
mean grade value of its goal rounded to two decimals, and the list is
strictly ascending (hence duplicate-free) in the goal name. -/
theorem evaluationPerformance_spec (c : Class) :
    (∀ g : String,
      (∃ p ∈ calculateEvaluationPerformance c, p.goal = g) ↔
      (∃ e ∈ c.enrollments, ∃ ev ∈ e.evaluations, ev.goal = g)) ∧
    (∀ p ∈ calculateEvaluationPerformance c,
      p.averageGrade =
        round2 ((gradesForGoal c p.goal).sum / ((gradesForGoal c p.goal).length : ℚ))) ∧
    (calculateEvaluationPerformance c).Pairwise (fun a b => a.goal < b.goal) := by
  refine ⟨?_, ?_, ?_⟩
  · intro g
    rw [show (∃ p ∈ calculateEvaluationPerformance c, p.goal = g) ↔
        ∃ d, (g, d) ∈ buildGoalMap (classEvaluations c) from ?_]
    · rw [show (∃ d, (g, d) ∈ buildGoalMap (classEvaluations c)) ↔
          gradesIn (classEvaluations c) g ≠ [] from ?_]
      · rw [gradesIn_ne_nil_iff]
        constructor
        · rintro ⟨ev, hev, rfl⟩
          obtain ⟨e, he, hin⟩ := (mem_classEvaluations c ev).mp hev
          exact ⟨e, he, ev, hin, rfl⟩
        · rintro ⟨e, he, ev, hin, rfl⟩
          exact ⟨ev, (mem_classEvaluations c ev).mpr ⟨e, he, hin⟩, rfl⟩
      · constructor
        · rintro ⟨d, hd⟩
          exact (mem_buildGoalMap.mp hd).1
        · intro hne
          exact ⟨_, mem_buildGoalMap.mpr ⟨hne, rfl⟩⟩
    · constructor
      · rintro ⟨p, hp, rfl⟩
        obtain ⟨k, d, hkd, rfl⟩ := mem_calcPerf.mp hp
        exact ⟨d, hkd⟩
      · rintro ⟨d, hd⟩
        exact ⟨mkPerfEntry g d, mem_calcPerf.mpr ⟨g, d, hd, rfl⟩, rfl⟩
  · intro p hp
    obtain ⟨k, d, hkd, rfl⟩ := mem_calcPerf.mp hp
    obtain ⟨hne, rfl⟩ := mem_buildGoalMap.mp hkd
    have hpos : 0 < (gradesIn (classEvaluations c) k).length :=
      List.length_pos.mpr hne
    rw [mkPerfEntry_avg, if_pos hpos]
    have hgoal : (mkPerfEntry k ⟨gradesIn (classEvaluations c) k,
        countDist (gradesIn (classEvaluations c) k)⟩).goal = k := rfl
    rw [hgoal, gradesForGoal_eq, List.length_map]
  · have hnodupKeys := keys_buildGoalMap_nodup (classEvaluations c)
    have hmapeq :
        ((buildGoalMap (classEvaluations c)).map
          (fun q => mkPerfEntry q.1 q.2)).map (fun p => p.goal) =
        (buildGoalMap (classEvaluations c)).map Prod.fst := by
      simp only [List.map_map]
      rfl
    have hperm :
        ((calculateEvaluationPerformance c).map (fun p => p.goal)).Perm
          ((buildGoalMap (classEvaluations c)).map Prod.fst) := by
      rw [← hmapeq]
      exact List.Perm.map _ (sortPerf_perm _)
    have hnodup : ((calculateEvaluationPerformance c).map (fun p => p.goal)).Nodup :=
      hperm.nodup_iff.mpr hnodupKeys
    have hne : (calculateEvaluationPerformance c).Pairwise
        (fun a b => a.goal ≠ b.goal) := List.pairwise_map.mp hnodup
    have hle : (calculateEvaluationPerformance c).Pairwise
        (fun a b => a.goal ≤ b.goal) := sortPerf_sorted _
    exact (hle.and hne).imp (fun hab => lt_of_le_of_ne hab.1 hab.2)

/-- C8: the Average Calculator (modelled from the spec, §4.2) returns the
mean of the present values only, returns `0` when nothing is present, and
maps `[10, absent, 5]` to `7.5`. -/
theorem calculateAverage_spec :
    (∀ l : List (Option ℚ),
      calculateAverage l =
        if (l.filterMap id).length = 0 then 0
        else (l.filterMap id).sum / ((l.filterMap id).length : ℚ)) ∧
    calculateAverage [some 10, none, some 5] = 15 / 2 ∧
    calculateAverage [] = 0 := by
  have hmain : ∀ l : List (Option ℚ),
      calculateAverage l =
        if (l.filterMap id).length = 0 then 0
        else (l.filterMap id).sum / ((l.filterMap id).length : ℚ) := by
    intro l
    unfold calculateAverage
    rw [optAccum_foldl]
    simp
  refine ⟨hmain, ?_, by simp [hmain]⟩
  rw [hmain]
  rw [show List.filterMap id [some (10 : ℚ), none, some 5] = [10, 5] from rfl]
  norm_num [List.sum_cons]

/-- C9 counterexample: the claim speaks of a `failedByAbsenceCount` report
field being always `0`, but `ReportData` has no such field at all. -/
theorem failedByAbsenceCount_not_a_field :
    "failedByAbsenceCount" ∉ reportDataFields := by
  simp [reportDataFields]

/-- C9 (amended): the status classifier never returns `APPROVED_FINAL`
(the rule is an unimplemented TODO), so `approvedFinalCount` is `0` for
every snapshot; `FAILED_BY_ABSENCE` does not exist as a status value and
`failedByAbsenceCount` is not a report field. -/
theorem approvedFinal_never_assigned (c : Class) (now : Nat) :
    (generate c now).approvedFinalCount = 0 ∧
    ∀ e : Enrollment, getStudentStatus e ≠ .APPROVED_FINAL := by
  refine ⟨?_, fun e => getStudentStatus_ne_final e⟩
  simp only [generate]
  unfold calculateApprovalStats
  rw [foldl_approval_final]

/-- C10: in every computed evaluation-performance entry the grade
distribution counts sum to the number of evaluated students, which is at
least one. -/
theorem gradeDistribution_consistent (c : Class) :
    ∀ p ∈ calculateEvaluationPerformance c,
      p.gradeDistribution.MANA + p.gradeDistribution.MPA + p.gradeDistribution.MA
        = p.evaluatedStudents ∧ 1 ≤ p.evaluatedStudents := by
  intro p hp
  obtain ⟨k, d, hkd, rfl⟩ := mem_calcPerf.mp hp
  obtain ⟨hne, rfl⟩ := mem_buildGoalMap.mp hkd
  constructor
  · simp [mkPerfEntry, countDist, count_total]
  · simpa [mkPerfEntry] using List.length_pos.mpr hne

/-- Witness for C10 at a concrete one-evaluation class. -/
theorem gradeDistribution_consistent_witness :
    ((⟨"Tests", 10, ⟨0, 0, 1⟩, 1⟩ : EvaluationPerformance)
        ∈ calculateEvaluationPerformance oneEvalClass) ∧
    ((0 : Nat) + 0 + 1 = 1 ∧ 1 ≤ 1) := by
  have hmem : (⟨"Tests", 10, ⟨0, 0, 1⟩, 1⟩ : EvaluationPerformance)
      ∈ calculateEvaluationPerformance oneEvalClass := by
    have hlist : calculateEvaluationPerformance oneEvalClass =
        [⟨"Tests", 10, ⟨0, 0, 1⟩, 1⟩] := by
      rw [calculateEvaluationPerformance]
      norm_num [classEvaluations, oneEvalClass, maEnrollment, buildGoalMap,
        insertEval, sortPerf, List.mergeSort, mkPerfEntry, bumpDist,
        gradeValuesPerf, round2]
    rw [hlist]
    simp
  exact ⟨hmem, gradeDistribution_consistent oneEvalClass _ hmem⟩

end TA
